import Mathlib

/-!
# Map Painter .io — verification of the real-time game core

A shallow embedding of the repository's real-time game logic:

* `GameManager` (custom WebSocket server): client tracking, join/leave,
  claim/attack resolution, periodic resource accrual, error/broadcast emission.
* The client-side action helpers in `GameRealtimeContext` (adjacency-based
  attack resolution), embedded for comparison with the server resolver.
* The `useSupabaseRealtime` hook: reconnect backoff and the outbound
  message queue.

JavaScript numbers are modelled by `JSNum`: an integer-valued JS number or
`NaN` (`Option Int`, with `none` playing NaN).  This captures the arithmetic
that actually occurs in the sources (integer constants and client-supplied
integers), including the coercion `10 + undefined = NaN` that arises when an
`ATTACK_STATE` message omits its optional `extraResources` field.
-/

namespace MapPainter

/-- A JS number in the fragment the game uses: an integer value, or NaN
(`none`).  Arithmetic involving `undefined` also produces NaN, so an absent
numeric message field entering arithmetic is represented by `none` as well. -/
abbrev JSNum := Option Int

/-- JS `+` on `JSNum`: NaN propagates. -/
def jadd : JSNum → JSNum → JSNum
  | some a, some b => some (a + b)
  | _, _ => none

/-- JS `-` on `JSNum`: NaN propagates. -/
def jsub : JSNum → JSNum → JSNum
  | some a, some b => some (a - b)
  | _, _ => none

/-- JS `<` on `JSNum`: any comparison with NaN is false. -/
def jlt : JSNum → JSNum → Bool
  | some a, some b => a < b
  | _, _ => false

/-- JS `>` on `JSNum`: any comparison with NaN is false. -/
def jgt : JSNum → JSNum → Bool
  | some a, some b => b < a
  | _, _ => false

/-!
## String-keyed maps

`GameManager` keeps `games` and `clients` in JS `Map`s and each game keeps
`players` and `stateOwnerships` in plain objects (`Record<string, T>`).  Both
look up, overwrite, delete and iterate by string key in insertion order with
unique keys; `RMap` models them as association lists with update-in-place
assignment.
-/

/-- A JS `Map<string, V>` / `Record<string, V>`: entries in insertion order. -/
abbrev RMap (V : Type) := List (String × V)

namespace RMap

variable {V : Type}

/-- `m.get(k)` / `obj[k]`: the value stored at key `k`, if any. -/
def get? (m : RMap V) (k : String) : Option V :=
  match m with
  | [] => none
  | e :: rest => if e.1 == k then some e.2 else get? rest k

/-- `m.set(k, v)` / `obj[k] = v`: overwrite in place if the key is present,
otherwise append. -/
def set (m : RMap V) (k : String) (v : V) : RMap V :=
  match m with
  | [] => [(k, v)]
  | e :: rest => if e.1 == k then (k, v) :: rest else e :: set rest k v

/-- `m.delete(k)` / `delete obj[k]`. -/
def erase (m : RMap V) (k : String) : RMap V :=
  m.filter (fun e => e.1 != k)

/-- `m.values()` / `Object.values(obj)`. -/
def values (m : RMap V) : List V := m.map (·.2)

/-- `m.keys()` / `Object.keys(obj)`. -/
def keys (m : RMap V) : List String := m.map (·.1)

/-- `m.size` / `Object.keys(obj).length`. -/
def size (m : RMap V) : Nat := m.length

/-- A map over the values in which each entry keeps its key (models a JS
loop reading or mutating every stored value). -/
def mapVal {W : Type} (m : RMap V) (f : String → V → W) : RMap W :=
  m.map (fun e => (e.1, f e.1 e.2))

theorem get?_set (m : RMap V) (k k' : String) (v : V) :
    (m.set k v).get? k' = if k' = k then some v else m.get? k' := by
  induction m with
  | nil =>
    by_cases h : k' = k <;> simp [set, get?, beq_iff_eq, h]
    exact fun h' => absurd h'.symm h
  | cons e rest ih =>
    by_cases he : e.1 = k
    · by_cases h : k' = k
      · simp [set, get?, beq_iff_eq, he, h]
      · have h2 : ¬k = k' := fun hh => h hh.symm
        simp [set, get?, beq_iff_eq, he, h, h2]
    · by_cases h : e.1 = k'
      · have hk : ¬k' = k := fun hh => he (hh ▸ h)
        simp [set, get?, beq_iff_eq, he, h, hk]
      · simp [set, get?, beq_iff_eq, he, h, ih]

theorem get?_isSome_set (m : RMap V) (k k' : String) (v : V)
    (h : (m.get? k').isSome) : ((m.set k v).get? k').isSome := by
  rw [get?_set]
  by_cases hk : k' = k <;> simp [hk, h]

theorem mem_values_set (m : RMap V) (k : String) (v x : V)
    (hx : x ∈ (m.set k v).values) : x = v ∨ x ∈ m.values := by
  induction m with
  | nil => simpa [set, values] using hx
  | cons e rest ih =>
    by_cases he : e.1 = k
    · simp only [set, beq_iff_eq, he, if_true, values, List.map_cons,
        List.mem_cons] at hx
      rcases hx with h | h
      · exact Or.inl h
      · exact Or.inr (by simp [values]; right; simpa [values] using h)
    · simp only [set, beq_iff_eq, he, if_false, values, List.map_cons,
        List.mem_cons] at hx
      rcases hx with h | h
      · exact Or.inr (by simp [values, h])
      · rcases ih (by simpa [values] using h) with h' | h'
        · exact Or.inl h'
        · exact Or.inr (by simp [values]; right; simpa [values] using h')

theorem mem_values_of_get? (m : RMap V) (k : String) (v : V)
    (h : m.get? k = some v) : v ∈ m.values := by
  induction m with
  | nil => simp [get?] at h
  | cons e rest ih =>
    by_cases hk : e.1 = k
    · simp [get?, beq_iff_eq, hk] at h
      simp [values, h]
    · simp [get?, beq_iff_eq, hk] at h
      simp [values]
      right
      simpa [values] using ih h

theorem get?_mapVal {W : Type} (m : RMap V) (f : String → V → W) (k : String) :
    (m.mapVal f).get? k = (m.get? k).map (f k) := by
  induction m with
  | nil => simp [mapVal, get?]
  | cons e rest ih =>
    by_cases h : e.1 = k
    · simp [mapVal, get?, beq_iff_eq, h]
    · simp [mapVal, get?, beq_iff_eq, h] at ih ⊢
      exact ih

theorem values_mapVal {W : Type} (m : RMap V) (f : String → V → W) :
    (m.mapVal f).values = m.map (fun e => f e.1 e.2) := by
  simp [mapVal, values]

end RMap

/-!
## Data model (`src/types/game.ts`, server side)
-/

/-- A player (`Player` in `game.ts`). -/
structure Player where
  id : String
  name : String
  color : String
  resources : JSNum
  connectedAt : Int
  lastActiveAt : Int
deriving Repr, DecidableEq

/-- A state-ownership record (`StateOwnership`); the server never populates
the optional `neighbors` field, so it is omitted here (the client-side model
below carries it). -/
structure StateOwnership where
  stateId : String
  ownerId : Option String
  capturedAt : Int
deriving Repr, DecidableEq

/-- A game instance as the `GameManager` builds it (`id`, `name`,
`createdAt`, `players`, `stateOwnerships`, `lastResourceUpdate`). -/
structure GameInstance where
  id : String
  name : String
  createdAt : Int
  players : RMap Player
  stateOwnerships : RMap StateOwnership
  lastResourceUpdate : Int
deriving Repr, DecidableEq

/-- A tracked client connection (`Client` in `GameManager.ts`); the socket
itself is I/O and is identified by `id`. -/
structure Client where
  id : String
  gameId : Option String
  playerId : Option String
deriving Repr, DecidableEq

/-- The `GameManager`'s mutable state: the `games` and `clients` maps. -/
structure GameManager where
  games : RMap GameInstance
  clients : RMap Client
deriving Repr, DecidableEq

/-- Resource constants from `GameManager.ts`. -/
def INITIAL_RESOURCES : Int := 10

def CLAIM_COST : Int := 5

def ATTACK_BASE_COST : Int := 10

def RESOURCE_GAIN_PER_STATE : Int := 1

/-- The fixed color palette in `handleJoinGame`. -/
def COLORS : List String :=
  ["#FF5733", "#33FF57", "#3357FF", "#F033FF", "#FF33A8", "#33FFF6"]

/-!
## Messages

Inbound client messages carry only the fields the `GameManager` reads.  Any
message whose `type` is not one of the four handled client types falls into
the `switch`'s `default` branch; those are collapsed into `ClientMessage.other`.
An `attackState` message's `extraResources` field is optional
(`AttackStateMessage.extraResources?: number`): `none` models an absent
field, which behaves as NaN once it reaches arithmetic.
-/

inductive ClientMessage where
  | joinGame (gameId : String) (playerName : Option String)
  | leaveGame
  | claimState (stateId : String)
  | attackState (stateId : String) (extraResources : JSNum)
  | other
deriving Repr, DecidableEq

/-- Outbound server messages, with the fields `GameManager` sends. -/
inductive ServerMessage where
  | gameState (gameId : String) (instGame : GameInstance)
  | playerJoined (gameId : String) (player : Player)
  | playerLeft (gameId : String) (playerId : String)
  | stateClaimed (gameId : String) (stateId : String) (playerId : String)
  | stateAttacked (gameId : String) (stateId : String)
      (attackerId : String) (defenderId : String) (success : Bool)
  | resourcesUpdated (gameId : String) (playerResources : RMap JSNum)
  | error (gameId : String) (message : String)
deriving Repr, DecidableEq

/-- An emission: either a direct send to one client (`sendToClient`) or a
`broadcastToGame` call (delivered to every client of the game whose player
id is not excluded; socket delivery itself is I/O). -/
inductive Emit where
  | toClient (clientId : String) (msg : ServerMessage)
  | broadcast (gameId : String) (excludePlayerIds : List String)
      (msg : ServerMessage)
deriving Repr, DecidableEq

/-!
## GameManager handlers (`src/server/GameManager.ts`)

Each handler returns the new manager state together with the list of
emissions it performed.  Nondeterministic inputs of the originals — the
generated uuid, `Date.now()`, and the random fallback color — are passed in
as parameters.
-/

/-- `sendErrorToClient`: an error message sent directly to one client;
the `gameId` field is `client.gameId || ""`. -/
def sendErrorToClient (client : Client) (errorMessage : String) : List Emit :=
  [Emit.toClient client.id (ServerMessage.error (client.gameId.getD "")
    errorMessage)]

/-- `sendErrorToPlayer`: scans `clients.values()` and sends the error to the
first client bound to `(gameId, playerId)`, if any. -/
def sendErrorToPlayer (gm : GameManager) (gameId playerId : String)
    (errorMessage : String) : List Emit :=
  match gm.clients.values.find?
      (fun c => c.gameId == some gameId && c.playerId == some playerId) with
  | some c => sendErrorToClient c errorMessage
  | none => []

/-- `addClient`: registers a fresh client with no game membership. -/
def addClient (gm : GameManager) (clientId : String) : GameManager :=
  { gm with
    clients :=
      gm.clients.set clientId
        ({ id := clientId, gameId := none, playerId := none } : Client) }

/-- `handlePlayerLeave`: removes the player from the game, broadcasts
`PLAYER_LEFT`, evicts the game if its player map became empty, and clears
the membership of every client bound to `(gameId, playerId)`.  It does not
touch `stateOwnerships`. -/
def handlePlayerLeave (gm : GameManager) (gameId playerId : String) :
    GameManager × List Emit :=
  match gm.games.get? gameId with
  | none => (gm, [])
  | some game =>
    let (games', emits) :=
      if (game.players.get? playerId).isSome then
        let game' := { game with players := game.players.erase playerId }
        (if game'.players.size == 0 then gm.games.erase gameId
         else gm.games.set gameId game',
         [Emit.broadcast gameId [] (ServerMessage.playerLeft gameId playerId)])
      else (gm.games, [])
    let clients' := gm.clients.mapVal (fun _ c =>
      if c.playerId == some playerId && c.gameId == some gameId then
        { c with gameId := none, playerId := none }
      else c)
    ({ games := games', clients := clients' }, emits)

/-- `handleJoinGame`: gets or lazily creates the game, creates the player
(palette color, fallback to the random color once exhausted; default name
from the uuid prefix; JS `||` treats the empty string as absent), inserts
the player, binds the client, sends the full `GAME_STATE` to the joiner and
broadcasts `PLAYER_JOINED` to everyone else. -/
def handleJoinGame (gm : GameManager) (clientId gameId : String)
    (playerName : Option String) (newPlayerId : String) (now : Int)
    (randColor : String) : GameManager × List Emit :=
  match gm.clients.get? clientId with
  | none => (gm, [])
  | some client =>
    let game :=
      match gm.games.get? gameId with
      | some g => g
      | none =>
        { id := gameId, name := "Game " ++ gameId, createdAt := now,
          players := [], stateOwnerships := [], lastResourceUpdate := now }
    let name :=
      match playerName with
      | some n => if n == "" then "Player " ++ newPlayerId.take 4 else n
      | none => "Player " ++ newPlayerId.take 4
    let assignedColors := game.players.values.map (·.color)
    let availableColors := COLORS.filter (fun c => !assignedColors.contains c)
    let color := match availableColors with
      | c :: _ => c
      | [] => randColor
    let player : Player :=
      { id := newPlayerId, name := name, color := color,
        resources := some INITIAL_RESOURCES, connectedAt := now,
        lastActiveAt := now }
    let game' := { game with players := game.players.set newPlayerId player }
    let client' :=
      { client with gameId := some gameId, playerId := some newPlayerId }
    ({ games := gm.games.set gameId game',
       clients := gm.clients.set clientId client' },
     [Emit.toClient client.id (ServerMessage.gameState gameId game'),
      Emit.broadcast gameId [newPlayerId]
        (ServerMessage.playerJoined gameId player)])

/-- The already-owned test of `handleClaimState`:
`stateOwnership && stateOwnership.ownerId !== null`. -/
def stateAlreadyOwned (game : GameInstance) (stateId : String) : Bool :=
  match game.stateOwnerships.get? stateId with
  | some so => so.ownerId.isSome
  | none => false

/-- The attack-target resolution of `handleAttackState`: the owner of the
state, when the state has an ownership record with a non-null owner
(`!stateOwnership || stateOwnership.ownerId === null` both yield `none`). -/
def attackTargetOwner (game : GameInstance) (stateId : String) :
    Option String :=
  match game.stateOwnerships.get? stateId with
  | some so => so.ownerId
  | none => none

/-- `handleClaimState`: rejects when `player.resources < CLAIM_COST`, then
when the state is already owned; otherwise deducts the cost, records the
ownership with a fresh `capturedAt`, and broadcasts `STATE_CLAIMED`. -/
def handleClaimState (gm : GameManager) (gameId playerId stateId : String)
    (now : Int) : GameManager × List Emit :=
  match gm.games.get? gameId with
  | none => (gm, [])
  | some game =>
    match game.players.get? playerId with
    | none => (gm, [])
    | some player =>
      if jlt player.resources (some CLAIM_COST) then
        (gm, sendErrorToPlayer gm gameId playerId
          "Not enough resources to claim state")
      else
        if stateAlreadyOwned game stateId then
          (gm, sendErrorToPlayer gm gameId playerId "State is already claimed")
        else
          let player' := { player with
            resources := jsub player.resources (some CLAIM_COST) }
          let game' := { game with
            players := game.players.set playerId player',
            stateOwnerships := game.stateOwnerships.set stateId
              { stateId := stateId, ownerId := some playerId,
                capturedAt := now } }
          ({ gm with games := gm.games.set gameId game' },
           [Emit.broadcast gameId []
             (ServerMessage.stateClaimed gameId stateId playerId)])

/-- `handleAttackState`: rejects unless the state is owned by another
player, then rejects when `attacker.resources < ATTACK_BASE_COST +
extraResources`; otherwise deducts the total cost, computes
`attackerStrength = 1 + extraResources` against `defenderStrength = 1`
(the source's placeholder formula, flagged by its own TODO), transfers
ownership exactly on success, and broadcasts `STATE_ATTACKED`. -/
def handleAttackState (gm : GameManager) (gameId attackerId stateId : String)
    (extraResources : JSNum) (now : Int) : GameManager × List Emit :=
  match gm.games.get? gameId with
  | none => (gm, [])
  | some game =>
    match game.players.get? attackerId with
    | none => (gm, [])
    | some attacker =>
      match attackTargetOwner game stateId with
      | none =>
        (gm, sendErrorToPlayer gm gameId attackerId
          "Can only attack states owned by other players")
      | some defenderId =>
        if defenderId == attackerId then
          (gm, sendErrorToPlayer gm gameId attackerId
            "Can only attack states owned by other players")
        else
          let totalCost := jadd (some ATTACK_BASE_COST) extraResources
          if jlt attacker.resources totalCost then
            (gm, sendErrorToPlayer gm gameId attackerId
              "Not enough resources for attack")
          else
            let attacker' := { attacker with
              resources := jsub attacker.resources totalCost }
            let attackerStrength := jadd (some 1) extraResources
            let defenderStrength : JSNum := some 1
            let success := jgt attackerStrength defenderStrength
            let ownerships' :=
              if success then
                game.stateOwnerships.set stateId
                  { stateId := stateId, ownerId := some attackerId,
                    capturedAt := now }
              else game.stateOwnerships
            let game' := { game with
              players := game.players.set attackerId attacker',
              stateOwnerships := ownerships' }
            ({ gm with games := gm.games.set gameId game' },
             [Emit.broadcast gameId []
               (ServerMessage.stateAttacked gameId stateId attackerId
                 defenderId success)])

/-- The number of states owned by `playerId` in `game`: the value of the
`stateCounts` record `updateResources` builds (`stateCounts[playerId] || 0`). -/
def ownedStateCount (game : GameInstance) (playerId : String) : Nat :=
  (game.stateOwnerships.values.filter
    (fun so => so.ownerId == some playerId)).length

/-- `updateResources` applied to one game: every player gains
`ownedStates * RESOURCE_GAIN_PER_STATE`, and `lastResourceUpdate` is set. -/
def tickGame (game : GameInstance) (now : Int) : GameInstance :=
  { game with
    players := game.players.mapVal (fun pid p =>
      { p with
        resources :=
          jadd p.resources
            (some ((ownedStateCount game pid : Int) * RESOURCE_GAIN_PER_STATE)) }),
    lastResourceUpdate := now }

/-- `updateResources`: skips when there are no games; otherwise updates
every game via `tickGame` and broadcasts one `RESOURCES_UPDATED` per game
carrying the full per-player resource record. -/
def updateResources (gm : GameManager) (now : Int) : GameManager × List Emit :=
  if gm.games.size == 0 then (gm, [])
  else
    ({ gm with games := gm.games.mapVal (fun _ g => tickGame g now) },
     gm.games.map (fun e => Emit.broadcast e.1 []
       (ServerMessage.resourcesUpdated e.1
         ((tickGame e.2 now).players.mapVal (fun _ p => p.resources)))))

/-- `removeClient`: a disconnect; leaves the game when the client was bound,
then drops the client record. -/
def removeClient (gm : GameManager) (clientId : String) :
    GameManager × List Emit :=
  let (gm1, emits) :=
    match gm.clients.get? clientId with
    | some c =>
      match c.gameId, c.playerId with
      | some g, some p => handlePlayerLeave gm g p
      | _, _ => (gm, [])
    | none => (gm, [])
  ({ gm1 with clients := gm1.clients.erase clientId }, emits)

/-- `handleMessage`: looks the client up, dispatches on the message type;
`LEAVE_GAME`, `CLAIM_STATE` and `ATTACK_STATE` are silently dropped unless
the client has both a `gameId` and a `playerId`; unhandled types hit the
`default` branch and get an "Unknown message type" error. -/
def handleMessage (gm : GameManager) (clientId : String) (msg : ClientMessage)
    (newPlayerId : String) (now : Int) (randColor : String) :
    GameManager × List Emit :=
  match gm.clients.get? clientId with
  | none => (gm, [])
  | some client =>
    match msg with
    | ClientMessage.joinGame gameId playerName =>
      handleJoinGame gm clientId gameId playerName newPlayerId now randColor
    | ClientMessage.leaveGame =>
      match client.gameId, client.playerId with
      | some g, some p => handlePlayerLeave gm g p
      | _, _ => (gm, [])
    | ClientMessage.claimState stateId =>
      match client.gameId, client.playerId with
      | some g, some p => handleClaimState gm g p stateId now
      | _, _ => (gm, [])
    | ClientMessage.attackState stateId extraResources =>
      match client.gameId, client.playerId with
      | some g, some p => handleAttackState gm g p stateId extraResources now
      | _, _ => (gm, [])
    | ClientMessage.other =>
      (gm, sendErrorToClient client "Unknown message type")

/-!
## Operation sequences

Reachable `GameManager` states, for the registry invariants: an `Op` is one
externally triggered event, applied through the public entry points. -/

inductive Op where
  | addClient (clientId : String)
  | join (clientId gameId : String) (playerName : Option String)
      (newPlayerId : String) (now : Int) (randColor : String)
  | leave (clientId : String)
  | claim (clientId stateId : String) (now : Int)
  | attack (clientId stateId : String) (extraResources : JSNum) (now : Int)
  | tick (now : Int)
deriving Repr, DecidableEq

/-- Apply one operation to the manager state (emissions discarded). -/
def applyOp (gm : GameManager) : Op → GameManager
  | Op.addClient c => addClient gm c
  | Op.join c g n pid now col =>
    (handleMessage gm c (ClientMessage.joinGame g n) pid now col).1
  | Op.leave c => (handleMessage gm c ClientMessage.leaveGame "" 0 "").1
  | Op.claim c s now => (handleMessage gm c (ClientMessage.claimState s) "" now "").1
  | Op.attack c s e now =>
    (handleMessage gm c (ClientMessage.attackState s e) "" now "").1
  | Op.tick now => (updateResources gm now).1

/-- The manager state after a sequence of operations from a fresh manager. -/
def run (ops : List Op) : GameManager :=
  ops.foldl applyOp { games := [], clients := [] }

/-- `op` is not a leave (and not a disconnect, which leaves internally). -/
def Op.notLeave : Op → Prop
  | Op.leave _ => False
  | _ => True

instance (op : Op) : Decidable op.notLeave := by
  cases op <;> simp [Op.notLeave] <;> infer_instance

/-- The spec's ownership invariant for one game: every owned state is owned
by a player currently present in the game's `players` mapping. -/
def ownersPresent (game : GameInstance) : Prop :=
  ∀ so ∈ game.stateOwnerships.values, ∀ pid,
    so.ownerId = some pid → (game.players.get? pid).isSome

/-- The ownership invariant over all games of a manager state. -/
def registryOwnersPresent (gm : GameManager) : Prop :=
  ∀ game ∈ gm.games.values, ownersPresent game

/-!
## Client-side action resolution (`GameRealtimeContext.tsx`)

The client context keeps a `GameInstance` whose `states` array carries the
optional `neighbors` field, and resolves attacks with adjacency-based
strengths.  Embedded here is the pure decision logic of `attackState`
(resource check, target checks, adjacency requirement, strength rule). -/

/-- A client-side `StateOwnership` with the optional `neighbors` field. -/
structure CState where
  stateId : String
  ownerId : Option String
  capturedAt : Int
  neighbors : Option (List String)
deriving Repr, DecidableEq

/-- `getAdjacentStates`: the states listed in the target's `neighbors`. -/
def getAdjacentStates (stateId : String) (states : List CState) :
    List CState :=
  match states.find? (fun s => s.stateId == stateId) with
  | none => []
  | some s =>
    match s.neighbors with
    | none => []
    | some nbrs => states.filter (fun t => nbrs.contains t.stateId)

/-- The possible outcomes of the client `attackState` helper. -/
inductive ClientAttackResult where
  | insufficientResources
  | stateNotFound
  | neutralTarget
  | ownTarget
  | notAdjacent
  | resolved (attackStrength defenseStrength : Int) (success : Bool)
deriving Repr, DecidableEq

/-- The decision logic of `attackState` in `GameRealtimeContext.tsx`
(guards in source order; `Math.floor(extraResources / 5)` is floor
division; `attackStrength > defenderAdjacentCount` decides success). -/
def clientAttackState (playerId : String) (resources : Int)
    (states : List CState) (stateId : String) (extraResources : Int) :
    ClientAttackResult :=
  let totalCost := ATTACK_BASE_COST + extraResources
  if resources < totalCost then ClientAttackResult.insufficientResources
  else
    match states.find? (fun s => s.stateId == stateId) with
    | none => ClientAttackResult.stateNotFound
    | some state =>
      match state.ownerId with
      | none => ClientAttackResult.neutralTarget
      | some ownerId =>
        if ownerId == playerId then ClientAttackResult.ownTarget
        else
          let adjacentStates := getAdjacentStates stateId states
          if !adjacentStates.any (fun s => s.ownerId == some playerId) then
            ClientAttackResult.notAdjacent
          else
            let attackerAdjacentCount :=
              (adjacentStates.filter (fun s => s.ownerId == some playerId)).length
            let attackStrength : Int :=
              attackerAdjacentCount + Int.fdiv extraResources 5
            let defenderAdjacentCount :=
              (adjacentStates.filter (fun s => s.ownerId == some ownerId)).length
            ClientAttackResult.resolved attackStrength defenderAdjacentCount
              (decide (attackStrength > (defenderAdjacentCount : Int)))

/-!
## `useSupabaseRealtime` (reconnection backoff and outbound queue)

The hook state relevant to the claims: whether a channel object exists
(`channelRef.current !== null`), `isConnected`, the status string, the
reconnect attempt counter, and the ordered outbound queue.  Message
payloads are opaque (`P`). -/

/-- Backoff constants from `useSupabaseRealtime.ts`. -/
def RECONNECT_INITIAL_DELAY : Nat := 1000

def RECONNECT_MAX_DELAY : Nat := 30000

def RECONNECT_MAX_ATTEMPTS : Nat := 10

/-- `getReconnectDelay`: `Math.min(RECONNECT_INITIAL_DELAY * 2 ** attempt,
RECONNECT_MAX_DELAY)` for the current attempt counter. -/
def getReconnectDelay (reconnectAttempts : Nat) : Nat :=
  min (RECONNECT_INITIAL_DELAY * 2 ^ reconnectAttempts) RECONNECT_MAX_DELAY

/-- A queued outbound message (`QueuedMessage`): event type and payload. -/
structure QueuedMessage (P : Type) where
  eventType : String
  message : P
deriving Repr, DecidableEq

/-- The hook's state. -/
structure HookState (P : Type) where
  hasChannel : Bool
  isConnected : Bool
  connectionStatus : String
  reconnectAttempts : Nat
  messageQueue : List (QueuedMessage P)
deriving Repr, DecidableEq

/-- `attemptReconnect`: aborts with `MAX_RETRIES_EXCEEDED` once the counter
reaches the cap, otherwise reports `RECONNECTING` and schedules a retry
after `getReconnectDelay` of the current counter (the returned delay). -/
def attemptReconnect {P : Type} (s : HookState P) : HookState P × Option Nat :=
  if RECONNECT_MAX_ATTEMPTS ≤ s.reconnectAttempts then
    ({ s with connectionStatus := "MAX_RETRIES_EXCEEDED" }, none)
  else
    ({ s with connectionStatus :=
        "RECONNECTING (" ++ toString (s.reconnectAttempts + 1) ++ "/" ++
          toString RECONNECT_MAX_ATTEMPTS ++ ")" },
     some (getReconnectDelay s.reconnectAttempts))

/-- The reconnect timer firing: the counter is incremented and `joinChannel`
is retried (the retry itself is asynchronous I/O). -/
def reconnectTimerFire {P : Type} (s : HookState P) : HookState P :=
  { s with reconnectAttempts := s.reconnectAttempts + 1 }

/-- The subscription status values the subscribe callback receives. -/
inductive SubscribeStatus where
  | SUBSCRIBED
  | TIMED_OUT
  | CLOSED
  | CHANNEL_ERROR
deriving Repr, DecidableEq

/-- The `channel.subscribe` status callback: on `SUBSCRIBED` it marks the
connection up, resets the attempt counter, and flushes the queue in order
(`processQueuedMessages`); on the failure statuses it marks the connection
down and calls `attemptReconnect`.  Returns the new state, the messages
sent on the channel (in send order), and the scheduled retry delay. -/
def subscribeCallback {P : Type} (s : HookState P) (status : SubscribeStatus) :
    HookState P × List (QueuedMessage P) × Option Nat :=
  match status with
  | SubscribeStatus.SUBSCRIBED =>
    ({ s with
        isConnected := true
        connectionStatus := "CONNECTED"
        reconnectAttempts := 0
        messageQueue := [] },
     s.messageQueue, none)
  | _ =>
    let s1 := { s with isConnected := false, connectionStatus := "ERROR" }
    let (s2, delay) := attemptReconnect s1
    (s2, [], delay)

/-- `sendMessage`: with a live channel and a connection, send immediately;
otherwise append to the queue (the disconnected branch may also kick off a
`joinChannel`, an asynchronous side effect on the connection only).
Returns the messages actually sent now. -/
def sendMessage {P : Type} (s : HookState P) (eventType : String)
    (message : P) : HookState P × List (QueuedMessage P) :=
  if s.hasChannel && s.isConnected then
    (s, [{ eventType := eventType, message := message }])
  else
    ({ s with messageQueue :=
        s.messageQueue ++ [{ eventType := eventType, message := message }] },
     [])

/-- Submitting a list of messages in order (state threaded through). -/
def sendAll {P : Type} (s : HookState P) (msgs : List (QueuedMessage P)) :
    HookState P :=
  msgs.foldl (fun st m => (sendMessage st m.eventType m.message).1) s

/-!
## Concrete fixtures

A two-player game used to evaluate the handlers on explicit inputs:
players `A` and `B` each hold 10 resources; state `R1` is owned by `B`,
state `R2` (adjacent to `R1` on the client-side map) is owned by `A`. -/

def demoGame : GameInstance :=
  { id := "g1", name := "Game g1", createdAt := 0,
    players :=
      [("A", { id := "A", name := "A", color := "#FF5733",
               resources := some 10, connectedAt := 0, lastActiveAt := 0 }),
       ("B", { id := "B", name := "B", color := "#33FF57",
               resources := some 10, connectedAt := 0, lastActiveAt := 0 })],
    stateOwnerships :=
      [("R1", { stateId := "R1", ownerId := some "B", capturedAt := 0 }),
       ("R2", { stateId := "R2", ownerId := some "A", capturedAt := 0 })],
    lastResourceUpdate := 0 }

def demoManager : GameManager :=
  { games := [("g1", demoGame)],
    clients :=
      [("cA", { id := "cA", gameId := some "g1", playerId := some "A" }),
       ("cB", { id := "cB", gameId := some "g1", playerId := some "B" })] }

/-- The same map as the client context sees it: `R1` and `R2` adjacent. -/
def demoCStates : List CState :=
  [{ stateId := "R1", ownerId := some "B", capturedAt := 0,
     neighbors := some ["R2"] },
   { stateId := "R2", ownerId := some "A", capturedAt := 0,
     neighbors := some ["R1"] }]

/-- Two clients join game `g1` as players `A` and `B`, `A` claims `R1`,
then `A` leaves. -/
def leaveTrace : List Op :=
  [Op.addClient "cA", Op.addClient "cB",
   Op.join "cA" "g1" (some "Alice") "A" 0 "#000000",
   Op.join "cB" "g1" (some "Bob") "B" 0 "#000000",
   Op.claim "cA" "R1" 1,
   Op.leave "cA"]

/-- The instance `leaveTrace` leaves behind: `B` is the only player, yet
`R1` is still recorded as owned by the departed `A`. -/
def leaveTraceFinalGame : GameInstance :=
  { id := "g1", name := "Game g1", createdAt := 0,
    players :=
      [("B", { id := "B", name := "Bob", color := "#33FF57",
               resources := some 10, connectedAt := 0, lastActiveAt := 0 })],
    stateOwnerships :=
      [("R1", { stateId := "R1", ownerId := some "A", capturedAt := 1 })],
    lastResourceUpdate := 0 }

/-!
## C1 — attack strength resolution
-/

/-- C1: the spec's strength rule (attacker strength = adjacent regions owned
by the attacker plus `floor(extraResources / 5)`, defender strength =
adjacent regions owned by the defender, success iff strictly greater) does
not govern `GameManager.handleAttackState`.  On the fixture — attacker `A`
owns `R2` adjacent to the target `R1`, the defender owns no adjacent region,
`extraResources = 0`, so the spec rule gives strengths 1 vs 0 and predicts
success (as the client-side `attackState` in `GameRealtimeContext.tsx`
indeed computes) — the server resolver instead evaluates its placeholder
formula `1 + extraResources > 1` and fails the attack, broadcasting
`success := false` and leaving `R1` owned by `B`. -/
theorem attackState_ignores_adjacency_strength :
    (handleAttackState demoManager "g1" "A" "R1" (some 0) 5).2 =
      [Emit.broadcast "g1" []
        (ServerMessage.stateAttacked "g1" "R1" "A" "B" false)] ∧
    ((handleAttackState demoManager "g1" "A" "R1" (some 0) 5).1.games.get?
        "g1").map (fun g => g.stateOwnerships.get? "R1") =
      some (some { stateId := "R1", ownerId := some "B", capturedAt := 0 }) ∧
    clientAttackState "A" 10 demoCStates "R1" 0 =
      ClientAttackResult.resolved 1 0 true := by
  refine ⟨rfl, rfl, rfl⟩

/-!
## C3 — resources stay a non-negative integer
-/

/-- C3: an `ATTACK_STATE` message that omits its optional `extraResources`
field drives the attacker's resources to NaN.  Player `B` holds 10
resources and attacks `R2` (owned by `A`): `totalCost = 10 + undefined =
NaN`, the guard `resources < NaN` is false so the attack is not rejected,
and `resources -= NaN` leaves `B` with NaN — not a non-negative integer.
The handler still broadcasts a `STATE_ATTACKED` result. -/
theorem attackState_undefined_extraResources_nan :
    (((handleMessage demoManager "cB" (ClientMessage.attackState "R2" none)
          "" 7 "").1.games.get? "g1").map
        (fun g => (g.players.get? "B").map Player.resources)) =
      some (some (none : JSNum)) ∧
    (handleMessage demoManager "cB" (ClientMessage.attackState "R2" none)
        "" 7 "").2 =
      [Emit.broadcast "g1" []
        (ServerMessage.stateAttacked "g1" "R2" "B" "A" false)] := by
  refine ⟨rfl, rfl⟩

/-!
## C2 — ownership points at present players
-/

/-- C2 counterexample: after `leaveTrace` — `A` claims `R1` and then leaves
while `B` stays — the surviving instance `g1` still records `R1` as owned
by `A`, but `A` is no longer in its `players` mapping, so the invariant
"every region's `ownerId` is null or a current player id" is violated in a
reachable state. -/
theorem leave_keeps_stale_ownerId :
    ¬ registryOwnersPresent (run leaveTrace) := by
  intro h
  have hg : (run leaveTrace).games.get? "g1" = some leaveTraceFinalGame := rfl
  have hmem := RMap.mem_values_of_get? _ _ _ hg
  have hso : ({ stateId := "R1", ownerId := some "A", capturedAt := 1 } :
      StateOwnership) ∈ leaveTraceFinalGame.stateOwnerships.values := by
    simp [leaveTraceFinalGame, RMap.values]
  have habs := h _ hmem _ hso "A" rfl
  exact absurd habs (by decide)

theorem ownersPresent_tickGame (game : GameInstance) (now : Int)
    (h : ownersPresent game) : ownersPresent (tickGame game now) := by
  intro so hso pid hpid
  have h' := h so (by simpa [tickGame] using hso) pid hpid
  simp only [tickGame, RMap.get?_mapVal]
  simpa using h'

theorem registryOwnersPresent_updateResources (gm : GameManager) (now : Int)
    (h : registryOwnersPresent gm) :
    registryOwnersPresent (updateResources gm now).1 := by
  unfold updateResources
  by_cases h0 : gm.games.size == 0
  · simpa [h0] using h
  · simp only [h0, Bool.false_eq_true, if_false]
    intro game hmem
    rw [RMap.values_mapVal] at hmem
    rcases List.mem_map.mp hmem with ⟨e, he, rfl⟩
    exact ownersPresent_tickGame _ _ (h e.2 (List.mem_map_of_mem _ he))

theorem registryOwnersPresent_handleClaimState (gm : GameManager)
    (gameId playerId stateId : String) (now : Int)
    (h : registryOwnersPresent gm) :
    registryOwnersPresent (handleClaimState gm gameId playerId stateId now).1 := by
  unfold handleClaimState
  split
  · exact h
  · rename_i game hg
    split
    · exact h
    · rename_i player hp
      split
      · exact h
      · split
        · exact h
        · intro game' hmem'
          rcases RMap.mem_values_set _ _ _ _ hmem' with rfl | hold
          · intro so hso pid hpid
            rcases RMap.mem_values_set _ _ _ _ hso with rfl | hsold
            · simp only at hpid
              injection hpid with hpid'
              subst hpid'
              rw [RMap.get?_set]
              simp
            · have := h game (RMap.mem_values_of_get? _ _ _ hg) so hsold pid
                hpid
              exact RMap.get?_isSome_set _ _ _ _ this
          · exact h game' hold

theorem registryOwnersPresent_handleAttackState (gm : GameManager)
    (gameId attackerId stateId : String) (extraResources : JSNum) (now : Int)
    (h : registryOwnersPresent gm) :
    registryOwnersPresent
      (handleAttackState gm gameId attackerId stateId extraResources now).1 := by
  unfold handleAttackState
  split
  · exact h
  · rename_i game hg
    split
    · exact h
    · rename_i attacker hp
      split
      · exact h
      · rename_i defenderId hto
        split
        · exact h
        · dsimp only
          split
          · exact h
          · intro game' hmem'
            rcases RMap.mem_values_set _ _ _ _ hmem' with rfl | hold
            · intro so hso pid hpid
              by_cases hs : jgt (jadd (some 1) extraResources) (some 1)
              · simp only [hs, if_true] at hso
                rcases RMap.mem_values_set _ _ _ _ hso with rfl | hsold
                · simp only at hpid
                  injection hpid with hpid2
                  subst hpid2
                  rw [RMap.get?_set]
                  simp
                · have := h game (RMap.mem_values_of_get? _ _ _ hg) so hsold
                    pid hpid
                  exact RMap.get?_isSome_set _ _ _ _ this
              · simp only [hs, Bool.false_eq_true, if_false] at hso
                have := h game (RMap.mem_values_of_get? _ _ _ hg) so hso pid
                  hpid
                exact RMap.get?_isSome_set _ _ _ _ this
            · exact h game' hold

theorem registryOwnersPresent_handleJoinGame (gm : GameManager)
    (clientId gameId : String) (playerName : Option String)
    (newPlayerId : String) (now : Int) (randColor : String)
    (h : registryOwnersPresent gm) :
    registryOwnersPresent
      (handleJoinGame gm clientId gameId playerName newPlayerId now
        randColor).1 := by
  unfold handleJoinGame
  split
  · exact h
  · rename_i client hc
    intro game' hmem'
    rcases RMap.mem_values_set _ _ _ _ hmem' with rfl | hold
    · intro so hso pid hpid
      revert hso
      split
      · rename_i game0 hgg
        intro hso
        have := h game0 (RMap.mem_values_of_get? _ _ _ hgg) so hso pid hpid
        exact RMap.get?_isSome_set _ _ _ _ this
      · intro hso
        simp [RMap.values] at hso
    · exact h game' hold

theorem registryOwnersPresent_applyOp (gm : GameManager) (op : Op)
    (hop : op.notLeave) (h : registryOwnersPresent gm) :
    registryOwnersPresent (applyOp gm op) := by
  cases op with
  | addClient c => exact fun g hg => h g hg
  | join c g n pid now col =>
    simp only [applyOp, handleMessage]
    split
    · exact h
    · exact registryOwnersPresent_handleJoinGame gm c g n pid now col h
  | leave c => exact hop.elim
  | claim c s now =>
    simp only [applyOp, handleMessage]
    split
    · exact h
    · split
      · rename_i g p hg2 hp2
        exact registryOwnersPresent_handleClaimState gm g p s now h
      · exact h
  | attack c s e now =>
    simp only [applyOp, handleMessage]
    split
    · exact h
    · split
      · rename_i g p hg2 hp2
        exact registryOwnersPresent_handleAttackState gm g p s e now h
      · exact h
  | tick now => exact registryOwnersPresent_updateResources gm now h

theorem registryOwnersPresent_foldl (ops : List Op) (gm : GameManager)
    (h : ∀ op ∈ ops, op.notLeave) (hgm : registryOwnersPresent gm) :
    registryOwnersPresent (ops.foldl applyOp gm) := by
  induction ops generalizing gm with
  | nil => exact hgm
  | cons op rest ih =>
    exact ih _ (fun o ho => h o (List.mem_cons_of_mem _ ho))
      (registryOwnersPresent_applyOp gm op (h op (List.mem_cons_self _ _)) hgm)

/-- C2 (amended): in every manager state reachable by a sequence of
client-add, join, claim, attack and resource-tick operations — but no
leave — every region's `ownerId` is either null or the id of a player
currently present in that instance's `players` mapping.  The restriction is
forced: `handlePlayerLeave` removes the player yet never clears the regions
they own (`leave_keeps_stale_ownerId`), so the unrestricted claim is false. -/
theorem registry_ownership_points_at_present_players (ops : List Op)
    (h : ∀ op ∈ ops, op.notLeave) : registryOwnersPresent (run ops) :=
  registryOwnersPresent_foldl ops _ h
    (fun g hg => by simp [RMap.values] at hg)

/-- A leave-free trace: both players join, `A` claims `R1`, `B` attacks it,
and a resource tick runs. -/
def leaveFreeTrace : List Op :=
  [Op.addClient "cA", Op.addClient "cB",
   Op.join "cA" "g1" (some "Alice") "A" 0 "#000000",
   Op.join "cB" "g1" (some "Bob") "B" 0 "#000000",
   Op.claim "cA" "R1" 1,
   Op.attack "cB" "R1" (some 0) 2,
   Op.tick 5]

/-- Witness for `registry_ownership_points_at_present_players` on
`leaveFreeTrace`. -/
theorem registry_ownership_points_at_present_players_witness :
    (∀ op ∈ leaveFreeTrace, op.notLeave) ∧
      registryOwnersPresent (run leaveFreeTrace) :=
  ⟨by decide, registry_ownership_points_at_present_players leaveFreeTrace
    (by decide)⟩

/-!
## C4 — claimState outcome trichotomy
-/

/-- C4: for a `claimState` naming an existing game and player, exactly the
three specified outcomes are possible, tried in order: resources below
`CLAIM_COST` fails with the insufficient-resources error; an already-owned
region fails with the already-claimed error; otherwise exactly `CLAIM_COST`
is deducted, the region's `ownerId` becomes the player with `capturedAt`
stamped to now, and a `STATE_CLAIMED` broadcast is emitted. -/
theorem handleClaimState_trichotomy (gm : GameManager)
    (gameId playerId stateId : String) (now : Int)
    (game : GameInstance) (player : Player)
    (hg : gm.games.get? gameId = some game)
    (hp : game.players.get? playerId = some player) :
    (jlt player.resources (some CLAIM_COST) = true →
      handleClaimState gm gameId playerId stateId now =
        (gm, sendErrorToPlayer gm gameId playerId
          "Not enough resources to claim state")) ∧
    (jlt player.resources (some CLAIM_COST) = false →
      stateAlreadyOwned game stateId = true →
      handleClaimState gm gameId playerId stateId now =
        (gm, sendErrorToPlayer gm gameId playerId
          "State is already claimed")) ∧
    (jlt player.resources (some CLAIM_COST) = false →
      stateAlreadyOwned game stateId = false →
      ((handleClaimState gm gameId playerId stateId now).1.games.get?
          gameId).map (fun g => g.players.get? playerId) =
        some (some { player with resources := jsub player.resources (some CLAIM_COST) }) ∧
      ((handleClaimState gm gameId playerId stateId now).1.games.get?
          gameId).map (fun g => g.stateOwnerships.get? stateId) =
        some (some { stateId := stateId, ownerId := some playerId, capturedAt := now }) ∧
      (handleClaimState gm gameId playerId stateId now).2 =
        [Emit.broadcast gameId []
          (ServerMessage.stateClaimed gameId stateId playerId)]) := by
  unfold handleClaimState
  simp only [hg, hp]
  refine ⟨fun h1 => by simp [h1], fun h1 h2 => by simp [h1, h2],
    fun h1 h2 => ?_⟩
  simp only [h1, h2, Bool.false_eq_true, if_false]
  refine ⟨?_, ?_, ?_⟩
  · rw [RMap.get?_set]
    simp [RMap.get?_set]
  · rw [RMap.get?_set]
    simp [RMap.get?_set]
  · simp

/-- Witness for `handleClaimState_trichotomy`: player `A` (10 resources)
claims the unowned `R3` in the fixture; afterwards `A` holds 5 resources
and `R3` is owned by `A` with `capturedAt = 9`. -/
theorem handleClaimState_trichotomy_witness :
    ((handleClaimState demoManager "g1" "A" "R3" 9).1.games.get? "g1").map
        (fun g => (g.players.get? "A").map Player.resources) =
      some (some (some 5)) ∧
    ((handleClaimState demoManager "g1" "A" "R3" 9).1.games.get? "g1").map
        (fun g => g.stateOwnerships.get? "R3") =
      some (some { stateId := "R3", ownerId := some "A", capturedAt := 9 }) := by
  obtain ⟨h1, h2, h3⟩ :=
    (handleClaimState_trichotomy demoManager "g1" "A" "R3" 9 demoGame
      { id := "A", name := "A", color := "#FF5733", resources := some 10,
        connectedAt := 0, lastActiveAt := 0 } rfl rfl).2.2 rfl rfl
  exact ⟨rfl, h2⟩

/-!
## C5 — failed attacks still cost, ownership untouched
-/

/-- C5: an attack that passes validation (the target has an owner other
than the attacker, and the attacker can afford `ATTACK_BASE_COST +
extraResources`) but does not succeed deducts exactly the total cost from
the attacker while leaving the game's entire `stateOwnerships` map — hence
the target's owner and every other region — unchanged, leaving every other
player untouched, leaving every other game untouched, and broadcasting the
failed `STATE_ATTACKED`. -/
theorem handleAttackState_failure_frame (gm : GameManager)
    (gameId attackerId stateId defenderId : String) (k res now : Int)
    (game : GameInstance) (attacker : Player)
    (hg : gm.games.get? gameId = some game)
    (hp : game.players.get? attackerId = some attacker)
    (hres : attacker.resources = some res)
    (hto : attackTargetOwner game stateId = some defenderId)
    (hne : (defenderId == attackerId) = false)
    (hcost : jlt attacker.resources (jadd (some ATTACK_BASE_COST)
      (some k)) = false)
    (hfail : jgt (jadd (some 1) (some k)) (some 1) = false) :
    ((handleAttackState gm gameId attackerId stateId (some k) now).1.games.get?
        gameId).map (fun g => g.stateOwnerships) =
      some game.stateOwnerships ∧
    ((handleAttackState gm gameId attackerId stateId (some k) now).1.games.get?
        gameId).map (fun g => g.players.get? attackerId) =
      some (some { attacker with resources := some (res - (10 + k)) }) ∧
    (∀ pid, pid ≠ attackerId →
      ((handleAttackState gm gameId attackerId stateId (some k)
          now).1.games.get? gameId).map (fun g => g.players.get? pid) =
        some (game.players.get? pid)) ∧
    (∀ gid, gid ≠ gameId →
      (handleAttackState gm gameId attackerId stateId (some k)
          now).1.games.get? gid = gm.games.get? gid) ∧
    (handleAttackState gm gameId attackerId stateId (some k) now).2 =
      [Emit.broadcast gameId []
        (ServerMessage.stateAttacked gameId stateId attackerId defenderId
          false)] := by
  have heq : handleAttackState gm gameId attackerId stateId (some k) now =
      ({ games :=
           gm.games.set gameId
             { game with
               players :=
                 game.players.set attackerId
                   { attacker with resources := some (res - (10 + k)) } },
         clients := gm.clients },
       [Emit.broadcast gameId []
         (ServerMessage.stateAttacked gameId stateId attackerId defenderId
           false)]) := by
    have hcost2 : jlt (some res) (jadd (some ATTACK_BASE_COST) (some k)) =
        false := by rw [← hres]; exact hcost
    unfold handleAttackState
    simp only [hg, hp, hto, hne, Bool.false_eq_true, if_false, hcost2, hfail,
      hres]
    rfl
  refine ⟨?_, ?_, ?_, ?_, ?_⟩
  · rw [heq]
    simp [RMap.get?_set]
  · rw [heq]
    simp [RMap.get?_set]
  · intro pid hpid
    rw [heq]
    simp [RMap.get?_set, hpid]
  · intro gid hgid
    rw [heq]
    simp [RMap.get?_set, hgid]
  · rw [heq]

/-- Witness for `handleAttackState_failure_frame`: the spec scenario —
`B` (10 resources) attacks `R1` owned by `A`... in the fixture `A` attacks
`R1` owned by `B` with `extraResources = 0`: the attack fails, `A` drops to
0 resources, and `R1` keeps its owner. -/
theorem handleAttackState_failure_frame_witness :
    ((handleAttackState demoManager "g1" "A" "R1" (some 0) 5).1.games.get?
        "g1").map (fun g => g.stateOwnerships) =
      some demoGame.stateOwnerships ∧
    ((handleAttackState demoManager "g1" "A" "R1" (some 0) 5).1.games.get?
        "g1").map (fun g => g.players.get? "A") =
      some (some { id := "A", name := "A", color := "#FF5733",
                   resources := some 0, connectedAt := 0,
                   lastActiveAt := 0 }) := by
  obtain ⟨h1, h2, h3, h4, h5⟩ :=
    handleAttackState_failure_frame demoManager "g1" "A" "R1" "B" 0 10 5
      demoGame
      { id := "A", name := "A", color := "#FF5733", resources := some 10,
        connectedAt := 0, lastActiveAt := 0 }
      rfl rfl rfl rfl rfl rfl rfl
  exact ⟨h1, rfl⟩

/-!
## C6 — validation failures: ERROR to the actor only, no mutation
-/

/-- Every emission in `emits` is a direct error send to a client currently
bound to `(gameId, playerId)` — in particular nothing is broadcast and no
other participant receives anything. -/
def onlyErrorToPlayer (gm : GameManager) (gameId playerId : String)
    (emits : List Emit) : Prop :=
  ∀ e ∈ emits, ∃ c, c ∈ gm.clients.values ∧ c.gameId = some gameId ∧
    c.playerId = some playerId ∧ ∃ msg,
      e = Emit.toClient c.id (ServerMessage.error (c.gameId.getD "") msg)

theorem onlyErrorToPlayer_sendErrorToPlayer (gm : GameManager)
    (gameId playerId msg : String) :
    onlyErrorToPlayer gm gameId playerId
      (sendErrorToPlayer gm gameId playerId msg) := by
  unfold sendErrorToPlayer
  split
  · rename_i c hc
    intro e he
    simp only [sendErrorToClient, List.mem_singleton] at he
    have hpc := List.find?_some hc
    simp only [Bool.and_eq_true, beq_iff_eq] at hpc
    exact ⟨c, List.mem_of_find?_eq_some hc, hpc.1, hpc.2, msg, he⟩
  · intro e he
    simp at he

/-- C6: each of the four resolver validation failures — insufficient
resources for a claim, claim of an already-owned region, attack on an
invalid target (neutral or self-owned), insufficient resources for an
attack — leaves the whole registry untouched and emits only a direct ERROR
to a client bound to the acting player; nothing is broadcast. -/
theorem validation_failures_error_only_no_mutation (gm : GameManager)
    (gameId playerId stateId : String) (extra : JSNum) (now : Int)
    (game : GameInstance) (player : Player)
    (hg : gm.games.get? gameId = some game)
    (hp : game.players.get? playerId = some player) :
    (jlt player.resources (some CLAIM_COST) = true →
      (handleClaimState gm gameId playerId stateId now).1 = gm ∧
      onlyErrorToPlayer gm gameId playerId
        (handleClaimState gm gameId playerId stateId now).2) ∧
    (jlt player.resources (some CLAIM_COST) = false →
      stateAlreadyOwned game stateId = true →
      (handleClaimState gm gameId playerId stateId now).1 = gm ∧
      onlyErrorToPlayer gm gameId playerId
        (handleClaimState gm gameId playerId stateId now).2) ∧
    (attackTargetOwner game stateId = none ∨
        attackTargetOwner game stateId = some playerId →
      (handleAttackState gm gameId playerId stateId extra now).1 = gm ∧
      onlyErrorToPlayer gm gameId playerId
        (handleAttackState gm gameId playerId stateId extra now).2) ∧
    (∀ defenderId, attackTargetOwner game stateId = some defenderId →
      (defenderId == playerId) = false →
      jlt player.resources (jadd (some ATTACK_BASE_COST) extra) = true →
      (handleAttackState gm gameId playerId stateId extra now).1 = gm ∧
      onlyErrorToPlayer gm gameId playerId
        (handleAttackState gm gameId playerId stateId extra now).2) := by
  refine ⟨?_, ?_, ?_, ?_⟩
  · intro h1
    unfold handleClaimState
    simp only [hg, hp, h1, if_true]
    exact ⟨trivial, onlyErrorToPlayer_sendErrorToPlayer gm gameId playerId _⟩
  · intro h1 h2
    unfold handleClaimState
    simp only [hg, hp, h1, h2, Bool.false_eq_true, if_false, if_true]
    exact ⟨trivial, onlyErrorToPlayer_sendErrorToPlayer gm gameId playerId _⟩
  · intro h1
    unfold handleAttackState
    rcases h1 with h1 | h1
    · simp only [hg, hp, h1]
      exact ⟨trivial, onlyErrorToPlayer_sendErrorToPlayer gm gameId playerId _⟩
    · simp only [hg, hp, h1, beq_self_eq_true, if_true]
      exact ⟨trivial, onlyErrorToPlayer_sendErrorToPlayer gm gameId playerId _⟩
  · intro defenderId h1 h2 h3
    unfold handleAttackState
    simp only [hg, hp, h1, h2, Bool.false_eq_true, if_false, h3, if_true]
    exact ⟨trivial, onlyErrorToPlayer_sendErrorToPlayer gm gameId playerId _⟩

/-- Witness for `validation_failures_error_only_no_mutation`: `B` tries to
claim `R1`, which is already owned — the registry is unchanged and only an
error to `B`'s client is emitted. -/
theorem validation_failures_error_only_no_mutation_witness :
    (handleClaimState demoManager "g1" "B" "R1" 3).1 = demoManager ∧
    onlyErrorToPlayer demoManager "g1" "B"
      (handleClaimState demoManager "g1" "B" "R1" 3).2 :=
  (validation_failures_error_only_no_mutation demoManager "g1" "B" "R1"
      (some 0) 3 demoGame
      { id := "B", name := "B", color := "#33FF57", resources := some 10,
        connectedAt := 0, lastActiveAt := 0 } rfl rfl).2.1 rfl rfl

/-!
## C7 — resource accrual tick
-/

/-- Whether an emission is a `RESOURCES_UPDATED` broadcast on game `gid`. -/
def isResourcesUpdatedFor (gid : String) : Emit → Bool
  | Emit.broadcast g _ (ServerMessage.resourcesUpdated _ _) => g == gid
  | _ => false

theorem rmap_get?_eq_none_of_not_mem_keys {V : Type} (m : RMap V) (k : String)
    (h : k ∉ m.keys) : m.get? k = none := by
  induction m with
  | nil => rfl
  | cons e rest ih =>
    simp only [RMap.keys, List.map_cons, List.mem_cons] at h
    push_neg at h
    have hne : (e.1 == k) = false := by
      simp only [beq_eq_false_iff_ne]
      exact fun hh => h.1 hh.symm
    simp only [RMap.get?, hne, Bool.false_eq_true, if_false]
    exact ih (by simpa [RMap.keys] using h.2)

theorem resourcesUpdated_filter_nil (games : RMap GameInstance) (gid : String)
    (now : Int) (hget : games.get? gid = none) :
    (games.map (fun e => Emit.broadcast e.1 []
      (ServerMessage.resourcesUpdated e.1
        ((tickGame e.2 now).players.mapVal (fun _ p => p.resources))))).filter
      (isResourcesUpdatedFor gid) = [] := by
  induction games with
  | nil => rfl
  | cons e rest ih =>
    by_cases hk : (e.1 == gid) = true
    · rw [RMap.get?, hk] at hget
      simp at hget
    · rw [RMap.get?] at hget
      simp only [hk, Bool.false_eq_true, if_false] at hget
      simp only [List.map_cons, List.filter_cons, isResourcesUpdatedFor, hk,
        Bool.false_eq_true, if_false]
      exact ih hget

theorem resourcesUpdated_filter_single (games : RMap GameInstance)
    (gid : String) (game : GameInstance) (now : Int)
    (hnd : games.keys.Nodup) (hget : games.get? gid = some game) :
    (games.map (fun e => Emit.broadcast e.1 []
      (ServerMessage.resourcesUpdated e.1
        ((tickGame e.2 now).players.mapVal (fun _ p => p.resources))))).filter
      (isResourcesUpdatedFor gid) =
    [Emit.broadcast gid []
      (ServerMessage.resourcesUpdated gid
        ((tickGame game now).players.mapVal (fun _ p => p.resources)))] := by
  induction games with
  | nil => simp [RMap.get?] at hget
  | cons e rest ih =>
    have hnd1 : (e.1 :: RMap.keys rest).Nodup := hnd
    have hnd0 := List.nodup_cons.mp hnd1
    have hnd2 : (RMap.keys rest).Nodup ∧ e.1 ∉ RMap.keys rest :=
      ⟨hnd0.2, hnd0.1⟩
    by_cases hk : (e.1 == gid) = true
    · have hkeq : e.1 = gid := by simpa using hk
      rw [RMap.get?, hk] at hget
      simp only [if_true] at hget
      have hge : e.2 = game := by simpa using hget
      have hrest : RMap.get? rest gid = none :=
        rmap_get?_eq_none_of_not_mem_keys rest gid (hkeq ▸ hnd2.2)
      simp only [List.map_cons, List.filter_cons, isResourcesUpdatedFor, hk,
        if_true]
      rw [resourcesUpdated_filter_nil rest gid now hrest, hkeq, hge]
    · rw [RMap.get?] at hget
      simp only [hk, Bool.false_eq_true, if_false] at hget
      simp only [List.map_cons, List.filter_cons, isResourcesUpdatedFor, hk,
        Bool.false_eq_true, if_false]
      exact ih hnd2.1 hget

/-- C7: when the key set of `games` is duplicate-free (as a JS `Map`'s
always is), a resource tick updates every game in place: the game becomes
`tickGame game now`, whose `lastResourceUpdate` is the tick time, whose
`stateOwnerships` — and hence every per-player owned count, so the next
tick's delta — are unchanged, and in which every player gained exactly
`ownedStateCount * RESOURCE_GAIN_PER_STATE`; and exactly one
`RESOURCES_UPDATED` broadcast per instance is emitted, carrying the full
post-tick per-player resource record. -/
theorem updateResources_spec (gm : GameManager) (now : Int)
    (hnd : gm.games.keys.Nodup) :
    ∀ gid game, gm.games.get? gid = some game →
      (updateResources gm now).1.games.get? gid = some (tickGame game now) ∧
      (tickGame game now).lastResourceUpdate = now ∧
      (tickGame game now).stateOwnerships = game.stateOwnerships ∧
      (∀ pid, ownedStateCount (tickGame game now) pid =
        ownedStateCount game pid) ∧
      (∀ pid player, game.players.get? pid = some player →
        (tickGame game now).players.get? pid =
          some { player with
            resources := jadd player.resources
              (some ((ownedStateCount game pid : Int) *
                RESOURCE_GAIN_PER_STATE)) }) ∧
      ((updateResources gm now).2.filter (isResourcesUpdatedFor gid) =
        [Emit.broadcast gid []
          (ServerMessage.resourcesUpdated gid
            ((tickGame game now).players.mapVal (fun _ p => p.resources)))]) ∧
      (∀ pid player, game.players.get? pid = some player →
        ((tickGame game now).players.mapVal
            (fun _ p => p.resources)).get? pid =
          some (jadd player.resources
            (some ((ownedStateCount game pid : Int) *
              RESOURCE_GAIN_PER_STATE)))) := by
  intro gid game hget
  have hne : (gm.games.size == 0) = false := by
    cases hgames : gm.games with
    | nil => rw [hgames] at hget; simp [RMap.get?] at hget
    | cons e rest => rfl
  unfold updateResources
  simp only [hne, Bool.false_eq_true, if_false]
  refine ⟨?_, rfl, rfl, fun pid => rfl, ?_, ?_, ?_⟩
  · rw [RMap.get?_mapVal, hget]
    rfl
  · intro pid player hp
    simp only [tickGame]
    rw [RMap.get?_mapVal, hp]
    rfl
  · exact resourcesUpdated_filter_single gm.games gid game now hnd hget
  · intro pid player hp
    rw [RMap.get?_mapVal]
    simp only [tickGame]
    rw [RMap.get?_mapVal, hp]
    rfl

/-- Witness for `updateResources_spec` on the fixture: `A` owns one state
(`R2`), so one tick takes `A` from 10 to 11 resources, and exactly one
`RESOURCES_UPDATED` broadcast is emitted for `g1`. -/
theorem updateResources_spec_witness :
    (updateResources demoManager 99).1.games.get? "g1" =
      some (tickGame demoGame 99) ∧
    ((tickGame demoGame 99).players.get? "A").map Player.resources =
      some (some 11) ∧
    (updateResources demoManager 99).2.filter (isResourcesUpdatedFor "g1") =
      [Emit.broadcast "g1" []
        (ServerMessage.resourcesUpdated "g1"
          ((tickGame demoGame 99).players.mapVal (fun _ p => p.resources)))] := by
  obtain ⟨h1, h2, h3, h4, h5, h6, h7⟩ :=
    updateResources_spec demoManager 99 (by decide) "g1" demoGame rfl
  exact ⟨h1, rfl, h6⟩

/-!
## C8 — reconnection backoff
-/

/-- C8: with the attempt counter at `n` (below the retry cap), the delay
scheduled before the next retry is exactly
`min(RECONNECT_INITIAL_DELAY * 2 ^ n, RECONNECT_MAX_DELAY)` =
`min(1000ms * 2^n, 30000ms)`; the delay is monotone non-decreasing in the
attempt number and never exceeds the 30-second cap; and the `SUBSCRIBED`
callback (a successful connection) resets the counter to zero while
reporting `CONNECTED`. -/
theorem reconnect_backoff_spec {P : Type} (s : HookState P) (n m : Nat)
    (hn : s.reconnectAttempts = n) (hlt : n < RECONNECT_MAX_ATTEMPTS)
    (hnm : n ≤ m) :
    (attemptReconnect s).2 = some (min (1000 * 2 ^ n) 30000) ∧
    getReconnectDelay n ≤ getReconnectDelay m ∧
    getReconnectDelay n ≤ 30000 ∧
    (subscribeCallback s SubscribeStatus.SUBSCRIBED).1.reconnectAttempts =
      0 ∧
    (subscribeCallback s SubscribeStatus.SUBSCRIBED).1.connectionStatus =
      "CONNECTED" := by
  refine ⟨?_, ?_, ?_, rfl, rfl⟩
  · unfold attemptReconnect
    rw [hn, if_neg (Nat.not_le.mpr hlt)]
    rfl
  · exact min_le_min
      (Nat.mul_le_mul_left _ (Nat.pow_le_pow_right (by norm_num) hnm))
      (le_refl _)
  · exact min_le_right _ _

/-- A disconnected hook state on its third reconnect attempt. -/
def reconnectHook : HookState Nat :=
  { hasChannel := false
    isConnected := false
    connectionStatus := "DISCONNECTED"
    reconnectAttempts := 3
    messageQueue := [] }

/-- Witness for `reconnect_backoff_spec`: attempt 3 waits 8 seconds. -/
theorem reconnect_backoff_spec_witness :
    (attemptReconnect reconnectHook).2 = some 8000 ∧
    getReconnectDelay 3 ≤ getReconnectDelay 5 ∧
    getReconnectDelay 3 ≤ 30000 := by
  obtain ⟨h1, h2, h3, h4, h5⟩ :=
    reconnect_backoff_spec reconnectHook 3 5 rfl (by decide) (by decide)
  exact ⟨by rw [h1]; norm_num, h2, h3⟩

/-!
## C9 — outbound queue: FIFO flush, nothing dropped
-/

theorem sendAll_disconnected {P : Type} (s : HookState P)
    (ms : List (QueuedMessage P))
    (h : (s.hasChannel && s.isConnected) = false) :
    (sendAll s ms).hasChannel = s.hasChannel ∧
    (sendAll s ms).isConnected = s.isConnected ∧
    (sendAll s ms).messageQueue = s.messageQueue ++ ms := by
  induction ms generalizing s with
  | nil => simp [sendAll]
  | cons m rest ih =>
    have hstep : (sendMessage s m.eventType m.message).1 =
        { s with messageQueue := s.messageQueue ++ [m] } := by
      unfold sendMessage
      simp [h]
    have hrec := ih { s with messageQueue := s.messageQueue ++ [m] }
      (by simpa using h)
    simp only [sendAll, List.foldl_cons] at hrec ⊢
    rw [hstep]
    refine ⟨hrec.1, hrec.2.1, ?_⟩
    rw [hrec.2.2]
    simp

/-- C9: a message submitted with a live, connected channel is sent
immediately and the queue is untouched; a message submitted otherwise is
appended to the queue (FIFO) and nothing is sent; the `SUBSCRIBED`
transition flushes exactly the queued messages, in order, and empties the
queue — so after any sequence of disconnected submissions the flush sends
the prior queue followed by the submitted messages in submission order,
none dropped. -/
theorem outbound_queue_fifo {P : Type} (s : HookState P) (e : String) (p : P)
    (ms : List (QueuedMessage P)) :
    ((s.hasChannel && s.isConnected) = true →
      sendMessage s e p = (s, [{ eventType := e, message := p }])) ∧
    ((s.hasChannel && s.isConnected) = false →
      sendMessage s e p =
        ({ s with messageQueue :=
            s.messageQueue ++ [{ eventType := e, message := p }] }, [])) ∧
    ((subscribeCallback s SubscribeStatus.SUBSCRIBED).2.1 =
      s.messageQueue ∧
      (subscribeCallback s SubscribeStatus.SUBSCRIBED).1.messageQueue =
        []) ∧
    ((s.hasChannel && s.isConnected) = false →
      (subscribeCallback (sendAll s ms) SubscribeStatus.SUBSCRIBED).2.1 =
        s.messageQueue ++ ms ∧
      (subscribeCallback (sendAll s ms)
          SubscribeStatus.SUBSCRIBED).1.messageQueue = []) := by
  refine ⟨?_, ?_, ⟨rfl, rfl⟩, ?_⟩
  · intro h
    unfold sendMessage
    simp [h]
  · intro h
    unfold sendMessage
    simp [h]
  · intro h
    exact ⟨(sendAll_disconnected s ms h).2.2, rfl⟩

/-- A disconnected hook state with one message already queued. -/
def queueHook : HookState Nat :=
  { hasChannel := false
    isConnected := false
    connectionStatus := "DISCONNECTED"
    reconnectAttempts := 0
    messageQueue := [{ eventType := "a", message := 1 }] }

/-- Witness for `outbound_queue_fifo`: a disconnected hook with one queued
message receives two more; the flush sends all three in order. -/
theorem outbound_queue_fifo_witness :
    (subscribeCallback (sendAll queueHook
        [{ eventType := "b", message := 2 },
         { eventType := "c", message := 3 }])
      SubscribeStatus.SUBSCRIBED).2.1 =
      [{ eventType := "a", message := 1 },
       { eventType := "b", message := 2 },
       { eventType := "c", message := 3 }] := by
  have h := (outbound_queue_fifo queueHook "x" 0
      [{ eventType := "b", message := 2 },
       { eventType := "c", message := 3 }]).2.2.2 rfl
  rw [h.1]
  rfl

/-!
## C10 — messages from clients with no game membership
-/

/-- C10: a `CLAIM_STATE`, `ATTACK_STATE` or `LEAVE_GAME` message from a
client with no recorded membership (`gameId` and `playerId` both unset) is
silently ignored — no state change, no emission of any kind; only a message
whose type falls into the `switch`'s `default` branch draws the
"Unknown message type" ERROR reply, sent to that client alone. -/
theorem unjoined_client_messages_ignored (gm : GameManager)
    (clientId : String) (client : Client) (sid aid : String) (extra : JSNum)
    (pid : String) (now : Int) (rc : String)
    (hc : gm.clients.get? clientId = some client)
    (hg : client.gameId = none) (hp : client.playerId = none) :
    handleMessage gm clientId (ClientMessage.claimState sid) pid now rc =
      (gm, []) ∧
    handleMessage gm clientId (ClientMessage.attackState aid extra) pid now
      rc = (gm, []) ∧
    handleMessage gm clientId ClientMessage.leaveGame pid now rc =
      (gm, []) ∧
    handleMessage gm clientId ClientMessage.other pid now rc =
      (gm, [Emit.toClient client.id
        (ServerMessage.error "" "Unknown message type")]) := by
  unfold handleMessage
  simp only [hc, hg, hp]
  refine ⟨trivial, trivial, trivial, ?_⟩
  simp [sendErrorToClient, hg]

/-- A manager with one never-joined client `cX` alongside the demo game. -/
def lobbyManager : GameManager :=
  { games := [("g1", demoGame)],
    clients := [("cX", { id := "cX", gameId := none, playerId := none })] }

/-- Witness for `unjoined_client_messages_ignored` on `lobbyManager`. -/
theorem unjoined_client_messages_ignored_witness :
    handleMessage lobbyManager "cX" (ClientMessage.claimState "R1") "" 0 "" =
      (lobbyManager, []) ∧
    handleMessage lobbyManager "cX" ClientMessage.other "" 0 "" =
      (lobbyManager, [Emit.toClient "cX"
        (ServerMessage.error "" "Unknown message type")]) := by
  obtain ⟨h1, h2, h3, h4⟩ :=
    unjoined_client_messages_ignored lobbyManager "cX"
      { id := "cX", gameId := none, playerId := none } "R1" "R1" (some 0)
      "" 0 "" rfl rfl rfl
  exact ⟨h1, h4⟩

end MapPainter
